import Mathlib

/-!
Verification of the declarative-video-timeline renderer.

This file shallowly embeds the renderer's core and settles the spec's claims
against it:

* the Timeline Compiler `convertToCanonicalTimeline`
  (src/renderer/core/CanonicalTimeline.ts, first revision: the nested
  `visuals`/`audio` model that the spec follows);
* the Graph Accumulator (`FilterGraphBuilder`): the core revision
  (src/renderer/core/FilterGraphBuilder.ts) and the deduplicating revision
  exercised by the repository's own test suite (tests/renderer/core);
* the fade effect renderer (src/renderer/plugins/effects/fade.ts), the
  crossfade transition renderer (src/renderer/plugins/transitions/crossfade.ts)
  and `mixAudio`.

Modelling conventions:

* TypeScript numbers are modelled as `ℚ`; the JavaScript value `Infinity`,
  which probed durations may take, is modelled by the two-point extension
  `JNum`.
* `probeSource` is explicitly a placeholder for an external ffprobe service
  ("Placeholder for actual ffprobe functionality"); following the spec, which
  treats probing as an injected capability, the embedding passes the probe
  function as a parameter of type `Probe`.  Its second argument is the
  optional `blockDuration` argument of `probeSource`.
* `block.at` and `clip.end` are named `atTime` / `endTime` because `at` and
  `end` are Lean keywords.
* Emitted filter-graph operations are modelled as a structured type
  `FilterOp` mirroring the pieces of the filter strings the source
  concatenates; `console.warn` diagnostics are collected in a `warnings`
  list.
* Visual property merging (`props`: x/y/w/h/opacity/resize) is not modelled:
  no claim concerns it and it does not influence timing, ordering or the
  filter graph operations treated here.
* `Array.prototype.sort` is stable (ECMAScript 2019); the sort of the clip
  list is therefore modelled by the stable `List.mergeSort` with the
  comparator's non-strict order.
-/

/-! ## Data model and operations (shallow embedding of the source) -/

/-- A JavaScript number that may be `Infinity` (probed durations). -/
inductive JNum where
  | fin : ℚ → JNum
  | inf : JNum
deriving DecidableEq

/-- Media kinds of the `layout/v1` schema (`video | image | audio | colour`). -/
inductive MediaKind where
  | video | image | audio | colour
deriving DecidableEq

/-- A source descriptor (schema `Source`).  Only the fields that the timeline
compiler and the claims touch are carried; `atTime`/`duration` are the
schema's optional intra-block timing fields `at`/`duration`. -/
structure Source where
  kind : MediaKind
  src : String
  atTime : Option ℚ := none
  duration : Option ℚ := none
deriving DecidableEq

/-- An effect reference attached to a block (`CTClip.effects` entries); only
the `kind` discriminator matters to the timeline compiler, which copies and
(for audio) filters the list by `kind === 'fade'`. -/
structure Effect where
  kind : String
deriving DecidableEq

/-- A block of the document, with the fields `convertToCanonicalTimeline`
reads: optional id, optional absolute start `at` (here `atTime`), optional
explicit duration, visual layers, one optional audio source, effects. -/
structure Block where
  id : Option String := none
  atTime : Option ℚ := none
  duration : Option ℚ := none
  visuals : Option (List Source) := none
  audio : Option Source := none
  effects : Option (List Effect) := none
deriving DecidableEq

/-- The canvas of the document. -/
structure Canvas where
  w : ℕ
  h : ℕ
  fps : ℕ
  background : Option Source := none
deriving DecidableEq

/-- The validated `layout/v1` document (the parts the compiler reads). -/
structure LayoutV1 where
  canvas : Canvas
  blocks : List Block
deriving DecidableEq

/-- Result of probing a source (`ProbedSourceData`). -/
structure ProbedSourceData where
  duration : JNum
  hasAudio : Bool := false
  hasVideo : Bool := false
deriving DecidableEq

/-- The injected probing capability.  The first argument is the source, the
second the optional `blockDuration` argument of `probeSource`. -/
abbrev Probe := Source → Option ℚ → ProbedSourceData

/-- A canonical-timeline clip (`CTClip`): `endTime` is the source's `end`. -/
structure CTClip where
  id : String
  kind : MediaKind
  src : String
  track : ℕ
  start : ℚ
  endTime : ℚ
  duration : ℚ
  layerId : String
  effects : List Effect
deriving DecidableEq

/-- The canonical timeline returned by the compiler. -/
structure CanonicalTimeline where
  clips : List CTClip
  duration : ℚ
  canvas : Canvas
deriving DecidableEq

/-- The inner fold of the block-duration calculation: the longest finite
probed duration among the block's video visuals
(`if (videoProbe.duration !== Infinity && videoProbe.duration > videoDuration)`),
starting from `videoDuration = 0`. -/
def maxFiniteVideoDuration (probe : Probe) (visuals : List Source) : ℚ :=
  visuals.foldl
    (fun videoDuration visualSource =>
      if visualSource.kind = .video then
        match (probe visualSource none).duration with
        | .fin d => if videoDuration < d then d else videoDuration
        | .inf => videoDuration
      else videoDuration)
    0

/-- The `else if (block.visuals && block.visuals.length > 0)` arm of the
block-duration calculation: longest positive finite video duration, else the
5-second static default; blocks with no visuals fall to the 1-second default. -/
def blockDurationFromVisuals (probe : Probe) (block : Block) : ℚ :=
  match block.visuals with
  | some vs =>
    if 0 < vs.length then
      let videoDuration := maxFiniteVideoDuration probe vs
      if 0 < videoDuration then videoDuration else 5
    else 1
  | none => 1

/-- `calculatedBlockDuration`: explicit `block.duration`, else the probed
audio duration if finite and positive
(`audioDuration > 0 && audioDuration !== Infinity`), else the video/static
defaults of `blockDurationFromVisuals`. -/
def calculatedBlockDuration (probe : Probe) (block : Block) : ℚ :=
  match block.duration with
  | some d => d
  | none =>
    let audioDuration : JNum :=
      match block.audio with
      | some a => (probe a none).duration
      | none => .fin 0
    match audioDuration with
    | .fin q => if 0 < q then q else blockDurationFromVisuals probe block
    | .inf => blockDurationFromVisuals probe block

/-- Clip duration of one visual element: image/colour visuals fill the block,
media is `Math.min(probe === Infinity ? blockDuration : probe, blockDuration)`. -/
def visualClipDuration (probe : Probe) (blockDur : ℚ) (visualSource : Source) : ℚ :=
  if visualSource.kind = .image ∨ visualSource.kind = .colour then blockDur
  else
    min
      (match (probe visualSource (some blockDur)).duration with
       | .inf => blockDur
       | .fin d => d)
      blockDur

/-- Clip duration of the block's audio element:
`Math.min(probe === Infinity ? blockDuration : probe, blockDuration)`. -/
def audioClipDuration (probe : Probe) (blockDur : ℚ) (audioSource : Source) : ℚ :=
  min
    (match (probe audioSource (some blockDur)).duration with
     | .inf => blockDur
     | .fin d => d)
    blockDur

/-- The clip pushed for the visual at array position `index`. -/
def visualClip (probe : Probe) (block : Block) (blockId : String)
    (blockStartTime blockDur : ℚ) (index : ℕ) (visualSource : Source) : CTClip :=
  let clipDuration := visualClipDuration probe blockDur visualSource
  { id := blockId ++ "_visual_" ++ toString index
    kind := visualSource.kind
    src := visualSource.src
    track := index + 1
    start := blockStartTime
    endTime := blockStartTime + clipDuration
    duration := clipDuration
    layerId := blockId
    effects := (block.effects.getD []).map id }

/-- The clip pushed for the block's audio source (track 0, fade effects only). -/
def audioClip (probe : Probe) (block : Block) (blockId : String)
    (blockStartTime blockDur : ℚ) (audioSource : Source) : CTClip :=
  let clipDuration := audioClipDuration probe blockDur audioSource
  { id := blockId ++ "_audio"
    kind := audioSource.kind
    src := audioSource.src
    track := 0
    start := blockStartTime
    endTime := blockStartTime + clipDuration
    duration := clipDuration
    layerId := blockId
    effects := (block.effects.getD []).filter (fun e => e.kind == "fade") }

/-- All clips pushed while processing one block, in push order: the visuals in
array order (the `Promise.all` callbacks resolve in index order since the
mocked probe settles immediately), then the audio clip. -/
def blockClipList (probe : Probe) (block : Block) (blockId : String)
    (blockStartTime blockDur : ℚ) : List CTClip :=
  (match block.visuals with
   | none => []
   | some vs => vs.enum.map fun p => visualClip probe block blockId blockStartTime blockDur p.1 p.2) ++
  (match block.audio with
   | none => []
   | some a => [audioClip probe block blockId blockStartTime blockDur a])

/-- Loop state of `convertToCanonicalTimeline`: accumulated clips, the
sequential-layout cursor `currentTime`, and `blockCounter`. -/
structure ConvState where
  clips : List CTClip
  currentTime : ℚ
  blockCounter : ℕ
deriving DecidableEq

/-- The resolved id of a block (`block.id || block_<counter>`; JavaScript `||`
also replaces an empty id string). -/
def resolvedBlockId (block : Block) (counter : ℕ) : String :=
  match block.id with
  | some i => if i = "" then "block_" ++ toString counter else i
  | none => "block_" ++ toString counter

/-- One iteration of the block loop: `blockStartTime = block.at ?? currentTime`,
duration resolution, clip emission, and
`currentTime = block.at === undefined ? blockEndTime : currentTime`. -/
def processBlock (probe : Probe) (st : ConvState) (block : Block) : ConvState :=
  let blockCounter := st.blockCounter + 1
  let blockId := resolvedBlockId block blockCounter
  let blockStartTime := block.atTime.getD st.currentTime
  let dur := calculatedBlockDuration probe block
  let blockEndTime := blockStartTime + dur
  { clips := st.clips ++ blockClipList probe block blockId blockStartTime dur
    currentTime := if block.atTime.isNone then blockEndTime else st.currentTime
    blockCounter := blockCounter }

/-- The clip list in emission (push) order, before the final sort. -/
def emittedClips (probe : Probe) (doc : LayoutV1) : List CTClip :=
  (doc.blocks.foldl (processBlock probe) ⟨[], 0, 0⟩).clips

/-- `clips.reduce((maxEnd, clip) => Math.max(maxEnd, clip.end), 0)`. -/
def timelineDuration (clips : List CTClip) : ℚ :=
  clips.foldl (fun maxEnd clip => max maxEnd clip.endTime) 0

/-- The non-strict order of the final sort's comparator
(`a.start - b.start`, ties by `a.track - b.track`). -/
def clipLe (a b : CTClip) : Bool :=
  decide (a.start < b.start) || (decide (a.start = b.start) && decide (a.track ≤ b.track))

/-- `convertToCanonicalTimeline`: emit all clips, compute the total duration,
and stably sort by `(start, track)`. -/
def convertToCanonicalTimeline (probe : Probe) (doc : LayoutV1) : CanonicalTimeline :=
  let clips := emittedClips probe doc
  { clips := clips.mergeSort clipLe
    duration := timelineDuration clips
    canvas := doc.canvas }

/-- The ordering the claim states on the final clip list. -/
def ClipOrder (a b : CTClip) : Prop :=
  a.start < b.start ∨ (a.start = b.start ∧ a.track ≤ b.track)

/-- The key predicate used to state stability: clips at exactly the start
time `s` and track `t`. -/
def clipKeyAt (s : ℚ) (t : ℕ) (c : CTClip) : Bool :=
  decide (c.start = s) && decide (c.track = t)

/-- Specification-side cursor recursion, written from the claim's words: a
block's absolute start is its explicit `at` when present and otherwise the
running cursor (which starts at 0); a sequential block advances the cursor to
its end (start + duration); a block with explicit `at` does not advance the
cursor. -/
def specBlockStarts (probe : Probe) : List Block → ℚ → List ℚ
  | [], _ => []
  | b :: bs, cursor =>
    let s := match b.atTime with | some t => t | none => cursor
    s :: specBlockStarts probe bs
        (match b.atTime with
         | some _ => cursor
         | none => s + calculatedBlockDuration probe b)

/-- The block start times the compiler's loop actually uses, extracted by
running the loop (`processBlock`) and recording `block.at ?? currentTime` for
each block. -/
def codeBlockStarts (probe : Probe) : List Block → ConvState → List ℚ
  | [], _ => []
  | b :: bs, st =>
    (b.atTime.getD st.currentTime) :: codeBlockStarts probe bs (processBlock probe st b)

/-- Specification-side emission: each block contributes its clip list at its
spec-side start, and the spec-side cursor threads through. -/
def specEmittedClips (probe : Probe) : List Block → ℚ → ℕ → List CTClip
  | [], _, _ => []
  | b :: bs, cursor, counter =>
    let s := match b.atTime with | some t => t | none => cursor
    let d := calculatedBlockDuration probe b
    blockClipList probe b (resolvedBlockId b (counter + 1)) s d ++
      specEmittedClips probe bs
        (match b.atTime with | some _ => cursor | none => s + d) (counter + 1)

/-- The two-sequential-blocks scenario document of the claim: a background
colour, two blocks of explicit duration 3 (one colour visual each), no `at`. -/
def c2Doc : LayoutV1 :=
  { canvas := { w := 1280, h := 720, fps := 30,
                background := some { kind := .colour, src := "black" } }
    blocks :=
      [ { id := some "b1", duration := some 3,
          visuals := some [{ kind := .colour, src := "red" }] },
        { id := some "b2", duration := some 3,
          visuals := some [{ kind := .colour, src := "blue" }] } ] }

/-- The clip emitted for the first scenario block. -/
def c2ClipA : CTClip :=
  { id := "b1_visual_0", kind := .colour, src := "red", track := 1,
    start := 0, endTime := 3, duration := 3, layerId := "b1", effects := [] }

/-- The clip emitted for the second scenario block. -/
def c2ClipB : CTClip :=
  { id := "b2_visual_0", kind := .colour, src := "blue", track := 1,
    start := 3, endTime := 6, duration := 3, layerId := "b2", effects := [] }

/-- A trivial concrete probe used for witnesses. -/
def probe0 : Probe := fun _ _ => ⟨.fin 10, false, false⟩

/-- A one-colour-visual block used for witnesses. -/
def wBlock : Block := { visuals := some [{ kind := .colour, src := "red" }] }

/-- The finite probed audio duration of the block's audio source, when the
audio source exists and its probed duration is finite and positive (the
claim's second clause). -/
def specAudioProbedDuration (probe : Probe) (block : Block) : Option ℚ :=
  match block.audio with
  | none => none
  | some a =>
    match (probe a none).duration with
    | .fin q => if 0 < q then some q else none
    | .inf => none

/-- The finite probed durations of the block's video visuals. -/
def videoFiniteDurations (probe : Probe) (vs : List Source) : List ℚ :=
  vs.filterMap fun v =>
    if v.kind = .video then
      match (probe v none).duration with
      | .fin q => some q
      | .inf => none
    else none

/-- Maximum on JavaScript numbers including `Infinity`. -/
def jmax : JNum → JNum → JNum
  | .fin a, .fin b => .fin (max a b)
  | _, _ => .inf

/-- The claim's duration-resolution chain, taken literally: explicit
`block.duration`; else the probed audio duration when an audio source exists
and its probed duration is finite and positive; else the maximum probed
duration among the block's video visuals (the claim states no
finiteness/positivity guard here, so `Infinity` participates); else the fixed
static default 5 when only unbounded (image/colour) visuals exist; else the
smaller default 1 for an empty block. -/
def claimBlockDuration (probe : Probe) (block : Block) : JNum :=
  match block.duration with
  | some d => .fin d
  | none =>
    match specAudioProbedDuration probe block with
    | some q => .fin q
    | none =>
      let vs := block.visuals.getD []
      let videoVis := vs.filter fun v => v.kind == .video
      if videoVis.isEmpty then
        if vs.isEmpty then .fin 1 else .fin 5
      else
        (videoVis.map fun v => (probe v none).duration).foldl jmax (.fin 0)

/-- A probe reporting an unbounded (`Infinity`) duration for every source,
e.g. a live stream. -/
def probeInf : Probe := fun _ _ => ⟨.inf, false, true⟩

/-- A block with a single video visual and no explicit duration or audio. -/
def c3Block : Block := { visuals := some [{ kind := .video, src := "live" }] }

/-- The amended duration-resolution chain: as the claim, but the video clause
uses only finite probed durations and fires only when their maximum is
positive (mirroring the finite-and-positive guard the claim already states
for the audio clause); otherwise a block with visuals gets the static default
5, and a block without visuals gets 1. -/
def specBlockDurationAmended (probe : Probe) (block : Block) : ℚ :=
  match block.duration with
  | some d => d
  | none =>
    match specAudioProbedDuration probe block with
    | some q => q
    | none =>
      let vs := block.visuals.getD []
      let m := (videoFiniteDurations probe vs).foldl max 0
      if 0 < m then m
      else if vs.isEmpty then 1 else 5

/-- A probe reporting 20 seconds for audio sources and 10 for anything else. -/
def probe20 : Probe := fun s _ =>
  match s.kind with
  | .audio => ⟨.fin 20, true, false⟩
  | _ => ⟨.fin 10, false, true⟩

/-- The claim's particular scenario: a block with explicit `duration = 5` and
an audio child whose probed duration is 20. -/
def c3Doc : LayoutV1 :=
  { canvas := { w := 1280, h := 720, fps := 30 }
    blocks := [ { id := some "b1", duration := some 5,
                  audio := some { kind := .audio, src := "music" } } ] }

/-- The claim's element-level effective duration, taken literally: the
minimum of the element's own resolved duration (explicit `duration`, else
probed, else the block duration as default) and the block's remaining
duration from the element's intra-block `at` (default 0). -/
def claimElementEffectiveDuration (probe : Probe) (blockDur : ℚ) (s : Source) : ℚ :=
  let elemAt := s.atTime.getD 0
  let own :=
    match s.duration with
    | some d => d
    | none =>
      match (probe s (some blockDur)).duration with
      | .fin d => d
      | .inf => blockDur
  min own (blockDur - elemAt)

/-- A probe reporting a finite 10-second duration for every source. -/
def probe10 : Probe := fun _ _ => ⟨.fin 10, false, true⟩

/-- A video visual carrying explicit intra-block timing: `at = 4`,
`duration = 2` (both fields exist in the `Source` schema). -/
def c4Src : Source := { kind := .video, src := "v", atTime := some 4, duration := some 2 }

/-- A document with one block of explicit duration 10 containing `c4Src`. -/
def c4Doc : LayoutV1 :=
  { canvas := { w := 1280, h := 720, fps := 30 }
    blocks := [ { id := some "b", duration := some 10, visuals := some [c4Src] } ] }

/-- State of the core `FilterGraphBuilder`
(src/renderer/core/FilterGraphBuilder.ts): `inputCount` and the list of `-i`
flags. -/
structure CoreBuilder where
  inputCount : ℕ := 0
  inputs : List String := []
deriving DecidableEq

/-- `addInput` of the core builder: push the quoted `-i` flag and return
`this.inputCount++` — no deduplication. -/
def coreAddInput (filePath : String) (b : CoreBuilder) : ℕ × CoreBuilder :=
  (b.inputCount,
   { inputCount := b.inputCount + 1
     inputs := b.inputs ++ ["-i \"" ++ filePath ++ "\""] })

/-- State of the deduplicating `FilterGraphBuilder` revision (the revision the
repository's test suite constructs and asserts on): the input list plus the
`filePath → index` map, modelled as an insertion-ordered association list. -/
structure DedupBuilder where
  inputs : List String := []
  inputMap : List (String × ℕ) := []
deriving DecidableEq

/-- `addInput` of the deduplicating builder: return the existing index when
the path is in `inputMap`, else push the path and record
`inputs.length - 1`. -/
def dedupAddInput (filePath : String) (b : DedupBuilder) : ℕ × DedupBuilder :=
  match b.inputMap.lookup filePath with
  | some i => (i, b)
  | none =>
    let inputs := b.inputs ++ [filePath]
    let inputIndex := inputs.length - 1
    (inputIndex, { inputs := inputs, inputMap := b.inputMap ++ [(filePath, inputIndex)] })

/-- Folding a sequence of registrations over the deduplicating builder. -/
def runDedupAdds (ps : List String) (b : DedupBuilder) : DedupBuilder :=
  ps.foldl (fun acc p => (dedupAddInput p acc).2) b

/-- Well-formedness of the deduplicating builder: indices are dense,
zero-based and in registration order, and no path occurs twice in the map. -/
def DedupWF (b : DedupBuilder) : Prop :=
  b.inputMap.map Prod.snd = List.range b.inputs.length
    ∧ (b.inputMap.map Prod.fst).Nodup

/-- Decimal value of a digit character. -/
def decDigit (c : Char) : ℕ := c.toNat - 48

/-- Decimal value of a digit string, with an accumulator. -/
def valAux : List Char → ℕ → ℕ
  | [], a => a
  | c :: cs, a => valAux cs (10 * a + decDigit c)

/-- Stream categories of the core builder's `getUniqueStreamLabel`
(`'v' | 'a' | 's'`, default `'s'`: video, audio, subtitle/generic). -/
inductive StreamCat where
  | v | a | s
deriving DecidableEq

/-- The category's label text. -/
def catStr : StreamCat → String
  | .v => "v"
  | .a => "a"
  | .s => "s"

/-- The category's label character (for reasoning about the label text). -/
def catChar : StreamCat → Char
  | .v => 'v'
  | .a => 'a'
  | .s => 's'

/-- The per-category counters (`streamCounter = { v: 0, a: 0, s: 0 }`). -/
structure StreamCounter where
  v : ℕ := 0
  a : ℕ := 0
  s : ℕ := 0
deriving DecidableEq

/-- Read the counter of a category. -/
def getCount (st : StreamCounter) : StreamCat → ℕ
  | .v => st.v
  | .a => st.a
  | .s => st.s

/-- Write the counter of a category. -/
def setCount (st : StreamCounter) : StreamCat → ℕ → StreamCounter
  | .v, n => { st with v := n }
  | .a, n => { st with a := n }
  | .s, n => { st with s := n }

/-- The emitted label text, the source's template string
`[<prefix>_<counter>]`. -/
def mkStreamLabel (c : StreamCat) (n : ℕ) : String :=
  "[" ++ catStr c ++ "_" ++ Nat.repr n ++ "]"

/-- `getUniqueStreamLabel`: increment `this.streamCounter[prefix]` and return
the label built from the incremented counter. -/
def getUniqueStreamLabel (c : StreamCat) (st : StreamCounter) : String × StreamCounter :=
  (mkStreamLabel c (getCount st c + 1), setCount st c (getCount st c + 1))

/-- The labels returned by a finite sequence of `getUniqueStreamLabel` calls
on one builder instance. -/
def runLabels : List StreamCat → StreamCounter → List String
  | [], _ => []
  | c :: cs, st =>
    (getUniqueStreamLabel c st).1 :: runLabels cs (getUniqueStreamLabel c st).2

/-- A structured filter-graph operation, mirroring the pieces of the filter
strings the plugins concatenate: `fade=t=<type>:st=<st>:d=<d>[:color=<c>]`,
`afade=t=<type>:st=<st>:d=<d>`,
`xfade=transition=fade:duration=<d>:offset=<o>`,
`acrossfade=d=<d>:curve1=tri:curve2=tri`, and
`amix=inputs=<n>:duration=longest[:dropout_transition=<t>]`, each with its
input and output stream labels. -/
inductive FilterOp where
  | fade (input : String) (fadeType : String) (st d : ℚ) (color : Option String) (out : String)
  | afade (input : String) (fadeType : String) (st d : ℚ) (out : String)
  | xfade (fromS toS : String) (transition : String) (duration offset : ℚ) (out : String)
  | acrossfade (fromS toS : String) (d : ℚ) (curve1 curve2 : String) (out : String)
  | amix (inputs : List String) (nInputs : ℕ) (duration : String)
      (dropoutTransition : Option ℚ) (out : String)
deriving DecidableEq

/-- Whether an operation is an `xfade`. -/
def FilterOp.isXfade : FilterOp → Bool
  | .xfade _ _ _ _ _ _ => true
  | _ => false

/-- The builder state the plugins touch: the ordered operation list
(`complexFilterParts`, appended by `addFilter`) and the per-text label
counters (an insertion-ordered association list). -/
structure PluginBuilder where
  complexFilterParts : List FilterOp := []
  labelCounter : List (String × ℕ) := []
deriving DecidableEq

/-- Fresh label for the text the plugin passes, in the core builder's format
`[<text>_<count>]`.  The label text is not load-bearing for the fade,
crossfade and mix claims; only the operation payloads and the no-op cases
are. -/
def pluginLabel (pfx : String) (b : PluginBuilder) : String × PluginBuilder :=
  let n := (b.labelCounter.lookup pfx).getD 0 + 1
  ("[" ++ pfx ++ "_" ++ Nat.repr n ++ "]",
   { b with labelCounter := (pfx, n) :: b.labelCounter })

/-- The untyped `effect.params` bag as the fade renderer validates it:
`params.type` must be a string and `params.duration` a number. -/
structure FadeRawParams where
  type : Option String := none
  duration : Option ℚ := none
  color : Option String := none
deriving DecidableEq

/-- An effect as the effect renderer receives it. -/
structure CTEffect where
  id : String
  kind : String
  params : Option FadeRawParams := none
deriving DecidableEq

/-- Video/audio stream labels entering or leaving an effect. -/
structure Streams where
  video : Option String := none
  audio : Option String := none
deriving DecidableEq

/-- Result of an effect or transition application: the output streams, the
updated builder, and the `console.warn` diagnostics raised. -/
structure ApplyResult where
  streams : Streams
  builder : PluginBuilder
  warnings : List String
deriving DecidableEq

/-- `FadeEffectRenderer.apply`: validate the parameter bag, skip non-positive
durations, then emit a `fade` for the video stream (with
`st = type === 'in' ? 0 : Math.max(0, clip.duration - params.duration)` and
the colour attached for fade-in/fade-out) and an `afade` for the audio
stream, passing absent streams through. -/
def fadeApply (clip : CTClip) (effect : CTEffect) (inputStreams : Streams)
    (b : PluginBuilder) : ApplyResult :=
  match effect.params with
  | none =>
    ⟨inputStreams, b,
     ["FadeEffectRenderer: Invalid parameters for fade effect on clip " ++ clip.id]⟩
  | some params =>
    match params.type, params.duration with
    | some ty, some d =>
      if d ≤ 0 then
        ⟨inputStreams, b,
         ["FadeEffectRenderer: Fade duration must be positive. Skipping fade. Clip " ++ clip.id]⟩
      else
        let afterVideo : Streams × PluginBuilder :=
          match inputStreams.video with
          | none => (inputStreams, b)
          | some videoInputStream =>
            let r := pluginLabel ("v_" ++ clip.id ++ "_fade_" ++ ty) b
            let fadeStartTime := if ty = "in" then 0 else max 0 (clip.duration - d)
            let color := if ty = "in" ∨ ty = "out" then params.color else none
            ({ inputStreams with video := some r.1 },
             { r.2 with complexFilterParts :=
                r.2.complexFilterParts
                  ++ [.fade videoInputStream ty fadeStartTime d color r.1] })
        match inputStreams.audio with
        | none => ⟨afterVideo.1, afterVideo.2, []⟩
        | some audioInputStream =>
          let r := pluginLabel ("a_" ++ clip.id ++ "_fade_" ++ ty) afterVideo.2
          let fadeStartTime := if ty = "in" then 0 else max 0 (clip.duration - d)
          ⟨{ afterVideo.1 with audio := some r.1 },
           { r.2 with complexFilterParts :=
              r.2.complexFilterParts
                ++ [.afade audioInputStream ty fadeStartTime d r.1] }, []⟩
    | _, _ =>
      ⟨inputStreams, b,
       ["FadeEffectRenderer: Invalid parameters for fade effect on clip " ++ clip.id]⟩

/-- The transition descriptor the crossfade renderer reads: id and duration. -/
structure CTTransitionDesc where
  id : String
  duration : ℚ
deriving DecidableEq

/-- The four stream labels entering a transition. -/
structure TransitionStreams where
  fromVideo : Option String := none
  fromAudio : Option String := none
  toVideo : Option String := none
  toAudio : Option String := none
deriving DecidableEq

/-- `CrossFadeTransitionRenderer.apply`: for non-positive transition duration
warn and pass the `to` streams through; otherwise emit an `xfade` with
`offset = Math.max(0, fromClip.duration - transitionDuration)` when both
video streams are present (warning when `fromClip.duration` is shorter than
the transition), an `acrossfade` when both audio streams are present, and
pass a lone stream of either channel through. -/
def crossfadeApply (fromClip toClip : CTClip) (transition : CTTransitionDesc)
    (inputStreams : TransitionStreams) (b : PluginBuilder) : ApplyResult :=
  let transitionDuration := transition.duration
  if transitionDuration ≤ 0 then
    ⟨⟨inputStreams.toVideo, inputStreams.toAudio⟩, b,
     ["CrossFadeTransitionRenderer: Invalid or zero duration for transition " ++ transition.id]⟩
  else
    let _ := toClip
    let vphase : Option String × PluginBuilder × List String :=
      match inputStreams.fromVideo, inputStreams.toVideo with
      | some fromVideoStream, some toVideoStream =>
        let r := pluginLabel ("v_trans_" ++ transition.id) b
        let offset := max 0 (fromClip.duration - transitionDuration)
        let ws :=
          if fromClip.duration < transitionDuration then
            ["CrossFadeTransitionRenderer: fromClip " ++ fromClip.id
              ++ " duration is less than transition duration. Adjusting offset to 0."]
          else []
        (some r.1,
         { r.2 with complexFilterParts :=
            r.2.complexFilterParts
              ++ [.xfade fromVideoStream toVideoStream "fade" transitionDuration offset r.1] },
         ws)
      | none, some toVideoStream => (some toVideoStream, b, [])
      | some fromVideoStream, none => (some fromVideoStream, b, [])
      | none, none => (none, b, [])
    let aphase : Option String × PluginBuilder :=
      match inputStreams.fromAudio, inputStreams.toAudio with
      | some fromAudioStream, some toAudioStream =>
        let r := pluginLabel ("a_trans_" ++ transition.id) vphase.2.1
        (some r.1,
         { r.2 with complexFilterParts :=
            r.2.complexFilterParts
              ++ [.acrossfade fromAudioStream toAudioStream transitionDuration "tri" "tri" r.1] })
      | none, some toAudioStream => (some toAudioStream, vphase.2.1)
      | some fromAudioStream, none => (some fromAudioStream, vphase.2.1)
      | none, none => (none, vphase.2.1)
    ⟨⟨vphase.1, aphase.1⟩, aphase.2, vphase.2.2⟩

/-- Fresh label in the part of the builder that `mixAudio` lives in, whose
label format is `[<text><count>]`. -/
def getUniqueStreamLabelP5 (pfx : String) (b : PluginBuilder) : String × PluginBuilder :=
  let n := (b.labelCounter.lookup pfx).getD 0 + 1
  ("[" ++ pfx ++ Nat.repr n ++ "]",
   { b with labelCounter := (pfx, n) :: b.labelCounter })

/-- `mixAudio`: throw on an empty stream list, return a single stream
unchanged without emitting anything, and otherwise emit one `amix` over all
streams with `duration=longest` and the optional `dropout_transition`,
returning a fresh `a`-category label. -/
def mixAudio (audioStreams : List String) (dropoutTransition : Option ℚ)
    (b : PluginBuilder) : Except String (String × PluginBuilder) :=
  match audioStreams with
  | [] => .error "No audio streams provided to mixAudio."
  | [s] => .ok (s, b)
  | streams =>
    let r := getUniqueStreamLabelP5 "a" b
    .ok (r.1,
      { r.2 with complexFilterParts :=
          r.2.complexFilterParts
            ++ [.amix streams streams.length "longest" dropoutTransition r.1] })

/-! ## Lemmas, claim theorems, witnesses and counterexamples -/

/-- The Boolean comparator order agrees with the claim's ordering. -/
lemma clipLe_iff (a b : CTClip) : clipLe a b = true ↔ ClipOrder a b := by
  simp [clipLe, ClipOrder]

/-- The comparator order is transitive. -/
lemma clipLe_trans (a b c : CTClip) (h1 : clipLe a b) (h2 : clipLe b c) : clipLe a c := by
  simp only [clipLe, Bool.or_eq_true, Bool.and_eq_true, decide_eq_true_eq] at h1 h2 ⊢
  rcases h1 with h1 | ⟨h1e, h1t⟩ <;> rcases h2 with h2 | ⟨h2e, h2t⟩
  · exact Or.inl (h1.trans h2)
  · exact Or.inl (by rw [← h2e]; exact h1)
  · exact Or.inl (by rw [h1e]; exact h2)
  · exact Or.inr ⟨h1e.trans h2e, h1t.trans h2t⟩

/-- The comparator order is total. -/
lemma clipLe_total (a b : CTClip) : clipLe a b || clipLe b a := by
  simp only [clipLe, Bool.or_eq_true, Bool.and_eq_true, decide_eq_true_eq]
  rcases lt_trichotomy a.start b.start with h | h | h
  · exact Or.inl (Or.inl h)
  · rcases Nat.le_total a.track b.track with ht | ht
    · exact Or.inl (Or.inr ⟨h, ht⟩)
    · exact Or.inr (Or.inr ⟨h.symm, ht⟩)
  · exact Or.inr (Or.inl h)

/-- C1: for every probe and document, the clip list of the canonical timeline
returned by `convertToCanonicalTimeline` is pairwise ordered by
start-then-track (for clips `a` before `b`: `a.start < b.start`, or
`a.start = b.start` and `a.track ≤ b.track`), and the sort is stable: for
every key `(s, t)`, the clips with that exact start and track appear in the
same order as in the emission-order list. -/
theorem canonicalTimeline_sorted_stable (probe : Probe) (doc : LayoutV1) :
    (convertToCanonicalTimeline probe doc).clips.Pairwise ClipOrder ∧
    ∀ (s : ℚ) (t : ℕ),
      (convertToCanonicalTimeline probe doc).clips.filter (clipKeyAt s t)
        = (emittedClips probe doc).filter (clipKeyAt s t) := by
  constructor
  · have h := @List.sorted_mergeSort CTClip clipLe clipLe_trans clipLe_total
      (emittedClips probe doc)
    exact h.imp fun hab => (clipLe_iff _ _).mp hab
  · intro s t
    set l := emittedClips probe doc with hl
    have hpair : (l.filter (clipKeyAt s t)).Pairwise fun a b => clipLe a b := by
      apply List.pairwise_of_forall_mem_list
      intro a ha b hb
      have ha' := (List.mem_filter.mp ha).2
      have hb' := (List.mem_filter.mp hb).2
      simp only [clipKeyAt, Bool.and_eq_true, decide_eq_true_eq] at ha' hb'
      simp [clipLe, ha'.1, hb'.1, ha'.2, hb'.2]
    have hsub : List.Sublist (l.filter (clipKeyAt s t)) l := List.filter_sublist l
    have h1 : List.Sublist (l.filter (clipKeyAt s t)) (l.mergeSort clipLe) :=
      List.sublist_mergeSort clipLe_trans clipLe_total hpair hsub
    have h2 : List.Sublist ((l.filter (clipKeyAt s t)).filter (clipKeyAt s t))
        ((l.mergeSort clipLe).filter (clipKeyAt s t)) := h1.filter _
    rw [List.filter_eq_self.mpr (fun a ha => (List.mem_filter.mp ha).2)] at h2
    have h3 : List.Perm ((l.mergeSort clipLe).filter (clipKeyAt s t))
        (l.filter (clipKeyAt s t)) :=
      (List.mergeSort_perm l clipLe).filter _
    exact (h2.eq_of_length h3.length_eq.symm).symm

/-- The loop's start times agree with the claim's cursor recursion. -/
lemma codeBlockStarts_eq_spec (probe : Probe) :
    ∀ (blocks : List Block) (st : ConvState),
      codeBlockStarts probe blocks st = specBlockStarts probe blocks st.currentTime := by
  intro blocks
  induction blocks with
  | nil => intro st; rfl
  | cons b bs ih =>
    intro st
    cases h : b.atTime <;>
      simp [codeBlockStarts, specBlockStarts, processBlock, ih, h]

/-- The loop's accumulated clips are the spec-side emission. -/
lemma foldl_processBlock_clips (probe : Probe) :
    ∀ (blocks : List Block) (st : ConvState),
      (blocks.foldl (processBlock probe) st).clips
        = st.clips ++ specEmittedClips probe blocks st.currentTime st.blockCounter := by
  intro blocks
  induction blocks with
  | nil => intro st; simp [specEmittedClips]
  | cons b bs ih =>
    intro st
    rw [List.foldl_cons, ih]
    cases h : b.atTime <;>
      simp [specEmittedClips, processBlock, h, List.append_assoc]

/-- Every clip of a block starts at the block's start time. -/
lemma blockClipList_start (probe : Probe) (block : Block) (blockId : String)
    (s d : ℚ) (c : CTClip) (hc : c ∈ blockClipList probe block blockId s d) :
    c.start = s := by
  rcases List.mem_append.mp hc with h | h
  · match hv : block.visuals with
    | none => rw [hv] at h; simp at h
    | some vs =>
      rw [hv] at h
      obtain ⟨p, _, rfl⟩ := List.mem_map.mp h
      rfl
  · match ha : block.audio with
    | none => rw [ha] at h; simp at h
    | some a =>
      rw [ha] at h
      simp only [List.mem_singleton] at h
      subst h
      rfl

/-- C2: for every probe and document, the compiler's per-block start times
equal the claim's cursor recursion (`at` when present, else the running
cursor, which only sequential blocks advance), the emitted clips are exactly
the per-block clip lists at those starts, every clip of a block starts at the
block's start; and the concrete two-sequential-blocks document (duration 3
each, background colour, no `at`) yields clips spanning 0–3 and 3–6 with
total timeline duration 6. -/
theorem blockStart_at_or_cursor (probe : Probe) (doc : LayoutV1) :
    codeBlockStarts probe doc.blocks ⟨[], 0, 0⟩ = specBlockStarts probe doc.blocks 0
    ∧ emittedClips probe doc = specEmittedClips probe doc.blocks 0 0
    ∧ (∀ (block : Block) (blockId : String) (s d : ℚ) (c : CTClip),
        c ∈ blockClipList probe block blockId s d → c.start = s)
    ∧ ((convertToCanonicalTimeline probe c2Doc).clips.map fun c => (c.start, c.endTime))
        = [((0 : ℚ), (3 : ℚ)), (3, 6)]
    ∧ (convertToCanonicalTimeline probe c2Doc).duration = 6 := by
  have he : emittedClips probe c2Doc = [c2ClipA, c2ClipB] := by
    simp [emittedClips, c2Doc, processBlock, blockClipList, resolvedBlockId, visualClip,
      visualClipDuration, calculatedBlockDuration, c2ClipA, c2ClipB, List.enum, List.enumFrom]
    norm_num
    exact ⟨rfl, rfl⟩
  have hs : List.Pairwise (fun a b => clipLe a b = true) [c2ClipA, c2ClipB] := by decide
  refine ⟨codeBlockStarts_eq_spec probe doc.blocks _, ?_, ?_, ?_, ?_⟩
  · exact foldl_processBlock_clips probe doc.blocks ⟨[], 0, 0⟩
  · exact fun block blockId s d c hc => blockClipList_start probe block blockId s d c hc
  · show ((emittedClips probe c2Doc).mergeSort clipLe).map (fun c => (c.start, c.endTime))
        = [((0 : ℚ), (3 : ℚ)), (3, 6)]
    rw [he, List.mergeSort_of_sorted hs]
    decide
  · show timelineDuration (emittedClips probe c2Doc) = 6
    rw [he]
    decide

/-- Witness for C2: at the concrete probe `probe0`, a clip of a block placed
at start time 2 with duration 3 indeed starts at 2. -/
theorem blockStart_at_or_cursor_witness :
    (visualClip probe0 wBlock "b" 2 3 0 { kind := .colour, src := "red" }).start = 2 :=
  (blockStart_at_or_cursor probe0 c2Doc).2.2.1 wBlock "b" 2 3 _
    (by simp [blockClipList, wBlock, List.enum, List.enumFrom])

/-- Counterexample for C3 as stated: for a block whose only content is a video
visual probed as unbounded, the claim's chain yields the maximum probed
duration `Infinity`, but the code resolves the block duration to the static
default 5 (its video clause only admits finite positive probes). -/
theorem claim_duration_chain_counterexample :
    claimBlockDuration probeInf c3Block = .inf
    ∧ calculatedBlockDuration probeInf c3Block = 5
    ∧ JNum.inf ≠ JNum.fin 5 := by
  refine ⟨by decide, by decide, by decide⟩

/-- The step of the source's video-duration fold computes a maximum. -/
lemma if_lt_eq_max (a d : ℚ) : (if a < d then d else a) = max a d := by
  split
  · exact (max_eq_right (le_of_lt (by assumption))).symm
  · exact (max_eq_left (le_of_not_lt (by assumption))).symm

/-- The code's fold over the visuals equals the fold of `max` over the finite
video probed durations. -/
lemma maxFiniteVideoDuration_eq (probe : Probe) (vs : List Source) :
    maxFiniteVideoDuration probe vs = (videoFiniteDurations probe vs).foldl max 0 := by
  suffices h : ∀ acc : ℚ,
      vs.foldl
        (fun videoDuration visualSource =>
          if visualSource.kind = .video then
            match (probe visualSource none).duration with
            | .fin d => if videoDuration < d then d else videoDuration
            | .inf => videoDuration
          else videoDuration) acc
        = (videoFiniteDurations probe vs).foldl max acc from h 0
  induction vs with
  | nil => intro acc; rfl
  | cons v rest ih =>
    intro acc
    by_cases hv : v.kind = .video
    · cases hd : (probe v none).duration with
      | fin d =>
        simp only [List.foldl_cons, videoFiniteDurations, List.filterMap_cons, hv, if_pos, hd]
        rw [if_lt_eq_max]
        exact ih (max acc d)
      | inf =>
        simp only [List.foldl_cons, videoFiniteDurations, List.filterMap_cons, hv, if_pos, hd]
        exact ih acc
    · simp only [List.foldl_cons, videoFiniteDurations, List.filterMap_cons, hv, if_neg,
        not_false_iff]
      exact ih acc

/-- The visuals arm of the code agrees with the amended chain's tail. -/
lemma blockDurationFromVisuals_eq (probe : Probe) (block : Block) :
    blockDurationFromVisuals probe block
      = (if 0 < (videoFiniteDurations probe (block.visuals.getD [])).foldl max 0
         then (videoFiniteDurations probe (block.visuals.getD [])).foldl max 0
         else if (block.visuals.getD []).isEmpty then 1 else 5) := by
  unfold blockDurationFromVisuals
  cases hv : block.visuals with
  | none => simp [videoFiniteDurations]
  | some vs =>
    cases vs with
    | nil => simp [videoFiniteDurations]
    | cons v rest =>
      simp only [Option.getD_some, List.isEmpty_cons, List.length_cons, if_neg,
        Nat.succ_ne_zero, Bool.false_eq_true, Nat.zero_lt_succ, if_true, if_pos,
        ← maxFiniteVideoDuration_eq]
      simp

/-- C3 (amended): block duration resolution follows the precedence chain with
the finite-and-positive guard also on the video clause: explicit
`block.duration`; else the finite positive probed audio duration; else the
maximum finite probed video duration when positive; else 5 when the block has
visuals; else 1.  In particular a block with explicit duration 5 and an audio
child probed at 20 yields clip durations governed by 5. -/
theorem blockDuration_precedence_amended (probe : Probe) (block : Block) :
    calculatedBlockDuration probe block = specBlockDurationAmended probe block
    ∧ (emittedClips probe20 c3Doc).map (fun c => c.duration) = [5] := by
  constructor
  · unfold calculatedBlockDuration specBlockDurationAmended
    cases hd : block.duration with
    | some d => rfl
    | none =>
      cases ha : block.audio with
      | some a =>
        cases hq : (probe a none).duration with
        | fin q =>
          by_cases hpos : 0 < q
          · simp [specAudioProbedDuration, ha, hq, hpos]
          · simp [specAudioProbedDuration, ha, hq, hpos, blockDurationFromVisuals_eq]
        | inf => simp [specAudioProbedDuration, ha, hq, blockDurationFromVisuals_eq]
      | none => simp [specAudioProbedDuration, ha, blockDurationFromVisuals_eq]
  · simp [emittedClips, c3Doc, processBlock, blockClipList, resolvedBlockId, audioClip,
      audioClipDuration, calculatedBlockDuration, probe20, min_def]
    norm_num

/-- Counterexample for C4 as stated: the compiler never reads the element's
explicit `duration` or `at`; for `c4Src` inside a 10-second block it emits a
clip of duration 10 (probed duration clamped by the block), while the claim's
formula yields `min 2 (10 - 4) = 2`. -/
theorem element_duration_counterexample :
    (emittedClips probe10 c4Doc).map (fun c => (c.start, c.duration)) = [(0, 10)]
    ∧ claimElementEffectiveDuration probe10 10 c4Src = 2
    ∧ (10 : ℚ) ≠ 2 := by
  refine ⟨?_, ?_, by norm_num⟩
  · simp [emittedClips, c4Doc, c4Src, processBlock, blockClipList, resolvedBlockId,
      visualClip, visualClipDuration, calculatedBlockDuration, probe10, List.enum,
      List.enumFrom, min_def]
  · simp [claimElementEffectiveDuration, c4Src, probe10, min_def]
    norm_num

/-- The clip duration of a visual element never exceeds the block duration. -/
lemma visualClipDuration_le (probe : Probe) (d : ℚ) (src : Source) :
    visualClipDuration probe d src ≤ d := by
  unfold visualClipDuration
  split
  · exact le_refl d
  · exact min_le_right _ _

/-- C4 (amended): the compiler ignores element-level `at` and explicit
`duration` entirely.  Every emitted clip of a block starts at the block's
start, satisfies `end = start + duration`, and its duration never exceeds the
block duration (so no clip's end extends past the block's end, without any
exception); for media elements the effective duration is the minimum of the
probed duration (the block duration standing in for unbounded probes) and the
block duration, and the audio element obeys the same formula. -/
theorem element_duration_amended :
    (∀ (probe : Probe) (block : Block) (blockId : String) (s d : ℚ) (c : CTClip),
        c ∈ blockClipList probe block blockId s d →
        c.start = s ∧ c.endTime = s + c.duration ∧ c.duration ≤ d ∧ c.endTime ≤ s + d)
    ∧ (∀ (probe : Probe) (d : ℚ) (src : Source),
        src.kind ≠ .image ∧ src.kind ≠ .colour →
        visualClipDuration probe d src
          = min (match (probe src (some d)).duration with | .fin q => q | .inf => d) d)
    ∧ (∀ (probe : Probe) (d : ℚ) (src : Source),
        audioClipDuration probe d src
          = min (match (probe src (some d)).duration with | .fin q => q | .inf => d) d) := by
  refine ⟨?_, ?_, ?_⟩
  · intro probe block blockId s d c hc
    have hmain : c.start = s ∧ c.endTime = s + c.duration ∧ c.duration ≤ d := by
      rcases List.mem_append.mp hc with h | h
      · match hv : block.visuals with
        | none => rw [hv] at h; simp at h
        | some vs =>
          rw [hv] at h
          obtain ⟨p, _, rfl⟩ := List.mem_map.mp h
          exact ⟨rfl, rfl, visualClipDuration_le probe d p.2⟩
      · match ha : block.audio with
        | none => rw [ha] at h; simp at h
        | some a =>
          rw [ha] at h
          simp only [List.mem_singleton] at h
          subst h
          exact ⟨rfl, rfl, min_le_right _ _⟩
    refine ⟨hmain.1, hmain.2.1, hmain.2.2, ?_⟩
    rw [hmain.2.1]
    exact add_le_add_left hmain.2.2 s
  · intro probe d src h
    unfold visualClipDuration
    rw [if_neg]
    · cases hq : (probe src (some d)).duration <;> rfl
    · rintro (h1 | h2)
      · exact h.1 h1
      · exact h.2 h2
  · intro probe d src
    unfold audioClipDuration
    cases hq : (probe src (some d)).duration <;> rfl

/-- Witness for C4 (amended): a concrete colour clip of a 3-second block
placed at 0 has duration at most 3, and the media formula evaluates at a
concrete video source. -/
theorem element_duration_amended_witness :
    (visualClip probe0 wBlock "b" 0 3 0 { kind := .colour, src := "red" }).duration ≤ 3
    ∧ visualClipDuration probe0 3 { kind := .video, src := "v" }
        = min (match (probe0 { kind := .video, src := "v" } (some 3)).duration with
               | .fin q => q
               | .inf => 3) 3 :=
  ⟨(element_duration_amended.1 probe0 wBlock "b" 0 3 _
      (by simp [blockClipList, wBlock, List.enum, List.enumFrom])).2.2.1,
   element_duration_amended.2.1 probe0 3 { kind := .video, src := "v" }
      ⟨by decide, by decide⟩⟩

/-- A `lookup` miss skips the whole first list. -/
lemma lookup_append_of_none {α β : Type} [BEq α] (l₁ l₂ : List (α × β)) (a : α)
    (h : l₁.lookup a = none) : (l₁ ++ l₂).lookup a = l₂.lookup a := by
  induction l₁ with
  | nil => rfl
  | cons hd tl ih =>
    obtain ⟨k, v⟩ := hd
    rw [List.lookup_cons] at h
    rw [List.cons_append, List.lookup_cons]
    split
    · rename_i heq
      rw [heq] at h
      simp at h
    · rename_i heq
      rw [heq] at h
      exact ih h

/-- A `lookup` miss means the key is not among the stored keys. -/
lemma lookup_none_not_mem {α β : Type} [BEq α] [LawfulBEq α] (l : List (α × β)) (a : α)
    (h : l.lookup a = none) : a ∉ l.map Prod.fst := by
  induction l with
  | nil => simp
  | cons hd tl ih =>
    obtain ⟨k, v⟩ := hd
    rw [List.lookup_cons] at h
    simp only [List.map_cons, List.mem_cons]
    rintro (rfl | hmem)
    · simp at h
    · have htl : tl.lookup a = none := by
        revert h
        split
        · intro h; simp at h
        · intro h; exact h
      exact ih htl hmem

/-- `dedupAddInput` preserves well-formedness. -/
lemma dedupWF_step (p : String) (b : DedupBuilder) (h : DedupWF b) :
    DedupWF (dedupAddInput p b).2 := by
  unfold dedupAddInput
  cases hl : b.inputMap.lookup p with
  | some i => exact h
  | none =>
    constructor
    · simp only [List.map_append, List.map_cons, List.map_nil, h.1, List.length_append,
        List.length_singleton, List.length_nil, List.length_cons, Nat.zero_add,
        Nat.add_sub_cancel]
      rw [List.range_succ]
    · simp only [List.map_append, List.map_cons, List.map_nil]
      rw [List.nodup_append]
      refine ⟨h.2, List.nodup_singleton p, ?_⟩
      intro a ha hmem
      simp only [List.mem_singleton] at hmem
      subst hmem
      exact lookup_none_not_mem b.inputMap a hl ha

/-- C5 (code behaviour at the failing input, plus the behaviour the claim,
the spec and the repository's tests describe, which the deduplicating
revision satisfies): on the core builder, registering `input/file1.mp4` twice
returns 0 and then 1 — two distinct indices, and the flag list records the
path twice; on the deduplicating builder the same experiment returns 0 both
times with a single stored input, two distinct paths get the sequential
indices 0 and 1, `addInput` is idempotent from any state (same index and
same state on re-registration), and any registration sequence leaves the
index map dense, zero-based, in registration order, with no duplicated
path. -/
theorem addInput_dedup_code_bug :
    ((coreAddInput "input/file1.mp4" {}).1 = 0
      ∧ (coreAddInput "input/file1.mp4" (coreAddInput "input/file1.mp4" {}).2).1 = 1
      ∧ (coreAddInput "input/file1.mp4" (coreAddInput "input/file1.mp4" {}).2).2.inputs.length = 2)
    ∧ ((dedupAddInput "input/file1.mp4" {}).1 = 0
      ∧ (dedupAddInput "input/file1.mp4" (dedupAddInput "input/file1.mp4" {}).2).1 = 0
      ∧ (dedupAddInput "input/file1.mp4" (dedupAddInput "input/file1.mp4" {}).2).2.inputs.length = 1
      ∧ (dedupAddInput "input/file2.mp4" (dedupAddInput "input/file1.mp4" {}).2).1 = 1)
    ∧ (∀ (b : DedupBuilder) (p : String),
        (dedupAddInput p (dedupAddInput p b).2).1 = (dedupAddInput p b).1
          ∧ (dedupAddInput p (dedupAddInput p b).2).2 = (dedupAddInput p b).2)
    ∧ (∀ ps : List String, DedupWF (runDedupAdds ps {})) := by
  refine ⟨by decide, by decide, ?_, ?_⟩
  · intro b p
    unfold dedupAddInput
    cases hl : b.inputMap.lookup p with
    | some i => simp [hl]
    | none =>
      have h2 : (b.inputMap ++ [(p, b.inputs.length)]).lookup p = some b.inputs.length := by
        rw [lookup_append_of_none _ _ _ hl]
        simp
      simp only [hl]
      simp [h2]
  · intro ps
    have hinit : DedupWF {} := by constructor <;> simp
    have hstep : ∀ (b : DedupBuilder), DedupWF b → ∀ p, DedupWF (dedupAddInput p b).2 :=
      fun b h p => dedupWF_step p b h
    clear hinit
    suffices h : ∀ (ps : List String) (b : DedupBuilder), DedupWF b → DedupWF (runDedupAdds ps b) by
      exact h ps {} (by constructor <;> simp)
    intro ps
    induction ps with
    | nil => intro b hb; exact hb
    | cons p rest ih =>
      intro b hb
      exact ih _ (dedupWF_step p b hb)

/-- Decoding a digit character recovers the digit. -/
lemma decDigit_digitChar (d : ℕ) (h : d < 10) : decDigit (Nat.digitChar d) = d := by
  interval_cases d <;> decide

/-- The digits produced by `Nat.toDigitsCore` evaluate back to the number. -/
lemma valAux_toDigitsCore :
    ∀ (f n : ℕ) (ds : List Char), n < 10 ^ f →
      valAux (Nat.toDigitsCore 10 f n ds) 0 = valAux ds n := by
  intro f
  induction f with
  | zero =>
    intro n ds hn
    simp only [Nat.pow_zero, Nat.lt_one_iff] at hn
    subst hn
    rfl
  | succ f ih =>
    intro n ds hn
    rw [Nat.toDigitsCore]
    by_cases hz : n / 10 = 0
    · rw [if_pos hz]
      have hlt : n < 10 := by
        rcases Nat.lt_or_ge n 10 with h10 | h10
        · exact h10
        · exact absurd hz (by omega)
      show valAux ds (10 * 0 + decDigit (Nat.digitChar (n % 10))) = valAux ds n
      rw [decDigit_digitChar (n % 10) (Nat.mod_lt n (by norm_num))]
      rw [Nat.mul_zero, Nat.zero_add, Nat.mod_eq_of_lt hlt]
    · rw [if_neg hz]
      have hstep : n / 10 < 10 ^ f := by
        rw [Nat.pow_succ] at hn
        exact (Nat.div_lt_iff_lt_mul (by norm_num)).mpr hn
      rw [ih (n / 10) (Nat.digitChar (n % 10) :: ds) hstep]
      show valAux ds (10 * (n / 10) + decDigit (Nat.digitChar (n % 10))) = valAux ds n
      rw [decDigit_digitChar (n % 10) (Nat.mod_lt n (by norm_num))]
      rw [Nat.div_add_mod]

/-- The decimal digits of `n` evaluate to `n`. -/
lemma valAux_toDigits (n : ℕ) : valAux (Nat.toDigits 10 n) 0 = n := by
  have h : n < 10 ^ (n + 1) := by
    calc n < 10 ^ n := Nat.lt_pow_self (by norm_num) n
      _ ≤ 10 ^ (n + 1) := Nat.pow_le_pow_right (by norm_num) (Nat.le_succ n)
  exact valAux_toDigitsCore (n + 1) n [] h

/-- Decimal rendering of naturals is injective. -/
lemma nat_repr_injective : Function.Injective Nat.repr := by
  intro n m h
  have hd : Nat.toDigits 10 n = Nat.toDigits 10 m := congrArg String.data h
  calc n = valAux (Nat.toDigits 10 n) 0 := (valAux_toDigits n).symm
    _ = valAux (Nat.toDigits 10 m) 0 := by rw [hd]
    _ = m := valAux_toDigits m

/-- Character-level shape of a label. -/
lemma data_mkStreamLabel (c : StreamCat) (n : ℕ) :
    (mkStreamLabel c n).data = '[' :: catChar c :: '_' :: ((Nat.repr n).data ++ [']']) := by
  cases c <;> simp [mkStreamLabel, catStr, catChar]

/-- Labels determine their category and counter. -/
lemma mkStreamLabel_inj (c c' : StreamCat) (n n' : ℕ)
    (h : mkStreamLabel c n = mkStreamLabel c' n') : c = c' ∧ n = n' := by
  have hdata := congrArg String.data h
  rw [data_mkStreamLabel, data_mkStreamLabel] at hdata
  simp only [List.cons.injEq] at hdata
  obtain ⟨-, hc, -, hrest⟩ := hdata
  have hcc : c = c' := by
    cases c <;> cases c' <;> simp_all [catChar]
  refine ⟨hcc, ?_⟩
  have hrepr : (Nat.repr n).data = (Nat.repr n').data := List.append_cancel_right hrest
  exact nat_repr_injective (String.ext hrepr)

/-- Reading a counter after a write. -/
lemma getCount_setCount (st : StreamCounter) (c c' : StreamCat) (m : ℕ) :
    getCount (setCount st c m) c' = if c' = c then m else getCount st c' := by
  cases c <;> cases c' <;> simp [getCount, setCount]

/-- Every label of a run exceeds the entry counter of its category. -/
lemma runLabels_mem (cats : List StreamCat) :
    ∀ (st : StreamCounter) (lab : String), lab ∈ runLabels cats st →
      ∃ c n, lab = mkStreamLabel c n ∧ getCount st c < n := by
  induction cats with
  | nil => intro st lab h; simp [runLabels] at h
  | cons c cs ih =>
    intro st lab h
    rw [runLabels] at h
    rcases List.mem_cons.mp h with rfl | htail
    · exact ⟨c, getCount st c + 1, rfl, Nat.lt_succ_self _⟩
    · obtain ⟨c', n, rfl, hlt⟩ := ih _ _ htail
      refine ⟨c', n, rfl, ?_⟩
      rw [getUniqueStreamLabel, getCount_setCount] at hlt
      by_cases hcc : c' = c
      · rw [if_pos hcc] at hlt
        subst hcc
        omega
      · rwa [if_neg hcc] at hlt

/-- C6: across any finite sequence of `getUniqueStreamLabel` calls on one
builder instance, with any mix of category prefixes and from any counter
state (in particular the fresh `{v := 0, a := 0, s := 0}`), the returned
labels are pairwise distinct. -/
theorem freshLabel_pairwise_distinct (cats : List StreamCat) (st : StreamCounter) :
    (runLabels cats st).Pairwise (fun l1 l2 => l1 ≠ l2) := by
  induction cats generalizing st with
  | nil => simp [runLabels]
  | cons c cs ih =>
    rw [runLabels]
    refine List.Pairwise.cons ?_ (ih _)
    intro lab hlab heq
    obtain ⟨c', n, rfl, hlt⟩ := runLabels_mem cs _ lab hlab
    obtain ⟨rfl, hn⟩ := mkStreamLabel_inj _ _ _ _ heq
    rw [getUniqueStreamLabel, getCount_setCount, if_pos rfl] at hlt
    omega

/-- C7: for every clip and fade effect with valid parameters and positive
duration, with both streams present, the renderer emits exactly one `fade`
operation for the video stream and one `afade` for the audio stream, both
with start time `0` when the type is `in` and
`max 0 (clip.duration - effect.duration)` when the type is `out`. -/
theorem fade_start_time (clip : CTClip) (eid ty : String) (d : ℚ)
    (color : Option String) (inputStreams : Streams) (b : PluginBuilder)
    (vi ai : String) (hd : 0 < d)
    (hv : inputStreams.video = some vi) (ha : inputStreams.audio = some ai) :
    ∃ vout aout,
      (fadeApply clip ⟨eid, "fade", some ⟨some ty, some d, color⟩⟩ inputStreams b).builder.complexFilterParts
        = b.complexFilterParts
          ++ [FilterOp.fade vi ty (if ty = "in" then 0 else max 0 (clip.duration - d)) d
                (if ty = "in" ∨ ty = "out" then color else none) vout,
              FilterOp.afade ai ty (if ty = "in" then 0 else max 0 (clip.duration - d)) d aout]
      ∧ (ty = "in" → (if ty = "in" then (0 : ℚ) else max 0 (clip.duration - d)) = 0)
      ∧ (ty = "out" →
          (if ty = "in" then (0 : ℚ) else max 0 (clip.duration - d))
            = max 0 (clip.duration - d)) := by
  simp only [fadeApply, hv, ha, not_le.mpr hd, if_neg, if_false, pluginLabel,
    List.append_assoc, List.singleton_append, List.cons_append, List.nil_append]
  exact ⟨_, _, rfl, fun h => by rw [if_pos h], fun h => by subst h; rfl⟩

/-- Witness for C7: a clip of duration 1 with a fade-out of duration 2 emits
operations whose start time is `max 0 (1 - 2)`, which is 0, not -1. -/
theorem fade_start_time_witness :
    (max 0 ((1 : ℚ) - 2) = 0 ∧ max 0 ((1 : ℚ) - 2) ≠ -1)
    ∧ ∃ vout aout,
        (fadeApply { c2ClipA with duration := 1 } ⟨"e1", "fade", some ⟨some "out", some 2, none⟩⟩
            ⟨some "[0:v]", some "[0:a]"⟩ {}).builder.complexFilterParts
          = ({} : PluginBuilder).complexFilterParts
            ++ [FilterOp.fade "[0:v]" "out"
                  (if "out" = "in" then 0 else max 0 (({ c2ClipA with duration := 1 } : CTClip).duration - 2)) 2
                  (if "out" = "in" ∨ "out" = "out" then none else none) vout,
                FilterOp.afade "[0:a]" "out"
                  (if "out" = "in" then 0 else max 0 (({ c2ClipA with duration := 1 } : CTClip).duration - 2)) 2 aout]
        ∧ ("out" = "in" →
            (if "out" = "in" then (0 : ℚ)
             else max 0 (({ c2ClipA with duration := 1 } : CTClip).duration - 2)) = 0)
        ∧ ("out" = "out" →
            (if "out" = "in" then (0 : ℚ)
             else max 0 (({ c2ClipA with duration := 1 } : CTClip).duration - 2))
              = max 0 (({ c2ClipA with duration := 1 } : CTClip).duration - 2)) :=
  ⟨⟨by norm_num, by norm_num⟩,
   fade_start_time { c2ClipA with duration := 1 } "e1" "out" 2 none
     ⟨some "[0:v]", some "[0:a]"⟩ {} "[0:v]" "[0:a]" (by norm_num) rfl rfl⟩

/-- C9: a fade effect whose parameter bag is missing, whose `type` or
`duration` is missing, or whose duration is non-positive, is a no-op: the
input streams come back unchanged, the builder is untouched (no operation is
emitted), and a diagnostic is produced while the call still returns normally
(a recoverable skip, not a fatal error). -/
theorem fade_invalid_noop (clip : CTClip) (effect : CTEffect) (inputStreams : Streams)
    (b : PluginBuilder)
    (h : effect.params = none
      ∨ ∃ p, effect.params = some p
          ∧ (p.type = none ∨ p.duration = none ∨ ∃ d, p.duration = some d ∧ d ≤ 0)) :
    (fadeApply clip effect inputStreams b).streams = inputStreams
    ∧ (fadeApply clip effect inputStreams b).builder = b
    ∧ (fadeApply clip effect inputStreams b).warnings ≠ [] := by
  rcases h with h | ⟨p, hp, hcase⟩
  · simp [fadeApply, h]
  · rcases hcase with ht | hd | ⟨d, hd, hdle⟩
    · cases hdur : p.duration <;> simp [fadeApply, hp, ht, hdur]
    · cases hty : p.type <;> simp [fadeApply, hp, hty, hd]
    · cases hty : p.type with
      | none => simp [fadeApply, hp, hty, hd]
      | some ty => simp [fadeApply, hp, hty, hd, hdle]

/-- Witness for C9: a fade effect with no parameter bag at all is a no-op on
concrete streams and builder. -/
theorem fade_invalid_noop_witness :
    (fadeApply c2ClipA ⟨"e2", "fade", none⟩ ⟨some "[0:v]", some "[0:a]"⟩ {}).streams
        = ⟨some "[0:v]", some "[0:a]"⟩
    ∧ (fadeApply c2ClipA ⟨"e2", "fade", none⟩ ⟨some "[0:v]", some "[0:a]"⟩ {}).builder
        = ({} : PluginBuilder)
    ∧ (fadeApply c2ClipA ⟨"e2", "fade", none⟩ ⟨some "[0:v]", some "[0:a]"⟩ {}).warnings ≠ [] :=
  fade_invalid_noop c2ClipA ⟨"e2", "fade", none⟩ ⟨some "[0:v]", some "[0:a]"⟩ {} (Or.inl rfl)

/-- C8: for a crossfade of positive duration with both video streams present,
exactly one `xfade` operation is appended and its offset is
`max 0 (fromClip.duration - transitionDuration)`; when the `from` clip is
shorter than the transition a diagnostic is also produced. -/
theorem crossfade_offset (fromClip toClip : CTClip) (transition : CTTransitionDesc)
    (inputStreams : TransitionStreams) (b : PluginBuilder) (fv tv : String)
    (hd : 0 < transition.duration)
    (hfv : inputStreams.fromVideo = some fv) (htv : inputStreams.toVideo = some tv) :
    ∃ vout rest,
      (crossfadeApply fromClip toClip transition inputStreams b).builder.complexFilterParts
        = b.complexFilterParts
          ++ FilterOp.xfade fv tv "fade" transition.duration
              (max 0 (fromClip.duration - transition.duration)) vout :: rest
      ∧ (∀ op ∈ rest, op.isXfade = false)
      ∧ (fromClip.duration < transition.duration →
          (crossfadeApply fromClip toClip transition inputStreams b).warnings ≠ []) := by
  rcases hfa : inputStreams.fromAudio with _ | fa <;> rcases hta : inputStreams.toAudio with _ | ta <;>
    simp only [crossfadeApply, hfv, htv, hfa, hta, not_le.mpr hd, if_neg, if_false, pluginLabel,
      List.append_assoc, List.singleton_append, List.cons_append, List.nil_append] <;>
    refine ⟨_, _, rfl, ?_, ?_⟩
  all_goals
    first
    | (intro op hop
       simp only [List.mem_singleton] at hop
       subst hop
       rfl)
    | simp

/-- Witness for C8: `from.duration = 1/2`, `transition.duration = 1` clamps
the offset to `max 0 (1/2 - 1) = 0` and produces a diagnostic; and
`max 0 (5 - 1) = 4` for the un-clamped case. -/
theorem crossfade_offset_witness :
    (max 0 ((5 : ℚ) - 1) = 4 ∧ max 0 ((1 / 2 : ℚ) - 1) = 0)
    ∧ (∃ vout rest,
        (crossfadeApply { c2ClipA with duration := 1 / 2 } c2ClipB ⟨"t1", 1⟩
            ⟨some "[0:v]", none, some "[1:v]", none⟩ {}).builder.complexFilterParts
          = ({} : PluginBuilder).complexFilterParts
            ++ FilterOp.xfade "[0:v]" "[1:v]" "fade" (⟨"t1", 1⟩ : CTTransitionDesc).duration
                (max 0 (({ c2ClipA with duration := 1 / 2 } : CTClip).duration
                  - (⟨"t1", 1⟩ : CTTransitionDesc).duration)) vout :: rest
        ∧ (∀ op ∈ rest, op.isXfade = false)
        ∧ (({ c2ClipA with duration := 1 / 2 } : CTClip).duration
              < (⟨"t1", 1⟩ : CTTransitionDesc).duration →
            (crossfadeApply { c2ClipA with duration := 1 / 2 } c2ClipB ⟨"t1", 1⟩
                ⟨some "[0:v]", none, some "[1:v]", none⟩ {}).warnings ≠ [])) :=
  ⟨⟨by norm_num, by norm_num⟩,
   crossfade_offset { c2ClipA with duration := 1 / 2 } c2ClipB ⟨"t1", 1⟩
     ⟨some "[0:v]", none, some "[1:v]", none⟩ {} "[0:v]" "[1:v]" (by norm_num) rfl rfl⟩

/-- C10: `mixAudio` on an empty list throws; on a single stream it returns
that stream's label with the builder unchanged (no mixing operation); and on
two or more streams it appends exactly one `amix` operation with
`duration=longest` and the given dropout-transition window and returns a
fresh output label. -/
theorem mixAudio_cases (d : Option ℚ) (b : PluginBuilder) :
    mixAudio [] d b = Except.error "No audio streams provided to mixAudio."
    ∧ (∀ s : String, mixAudio [s] d b = Except.ok (s, b))
    ∧ (∀ streams : List String, 2 ≤ streams.length →
        mixAudio streams d b
          = Except.ok ((getUniqueStreamLabelP5 "a" b).1,
              { (getUniqueStreamLabelP5 "a" b).2 with complexFilterParts :=
                  b.complexFilterParts
                    ++ [FilterOp.amix streams streams.length "longest" d
                          (getUniqueStreamLabelP5 "a" b).1] })) := by
  refine ⟨rfl, fun s => rfl, ?_⟩
  intro streams h
  match streams with
  | [] => simp at h
  | [s] => simp at h
  | x :: y :: t => rfl

/-- Witness for C10: mixing the two concrete streams `[0:a]` and `[1:a]`
emits one `amix` with `duration=longest`. -/
theorem mixAudio_cases_witness :
    mixAudio ["[0:a]", "[1:a]"] (some 2) ({} : PluginBuilder)
      = Except.ok ((getUniqueStreamLabelP5 "a" ({} : PluginBuilder)).1,
          { (getUniqueStreamLabelP5 "a" ({} : PluginBuilder)).2 with complexFilterParts :=
              ({} : PluginBuilder).complexFilterParts
                ++ [FilterOp.amix ["[0:a]", "[1:a]"] (["[0:a]", "[1:a]"] : List String).length
                      "longest" (some 2) (getUniqueStreamLabelP5 "a" ({} : PluginBuilder)).1] }) :=
  (mixAudio_cases (some 2) {}).2.2 ["[0:a]", "[1:a]"] (by decide)
